import Mathlib

/-!
A shallow embedding of the model-selection notebook: synthetic low-rank data
with homoscedastic and heteroscedastic noise, PCA and Factor Analysis scored
by cross-validation over a shared component-count grid, shrinkage covariance
baselines, and maximum-likelihood rank selection.  External library calls
(model fitting, cross-validation, SVD, the seeded random number generator)
are abstracted as deterministic oracles; the notebook's own glue logic is
translated directly from the source.
-/

namespace PCAFA

/-- Sample count from the notebook configuration (n_samples = 1000). -/
def n_samples : ℕ := 1000

/-- Feature count from the notebook configuration (n_features = 50). -/
def n_features : ℕ := 50

/-- True generating rank of the signal (rank = 10). -/
def rank : ℕ := 10

/-- Noise amplitude (sigma = 1.). -/
def sigma : ℚ := 1

/-- Translation of numpy arange over naturals: start, exclusive stop, step;
the element count is the ceiling of (stop - start) / step. -/
def arange (start stop step : ℕ) : List ℕ :=
  (List.range ((stop - start + step - 1) / step)).map (fun k => start + k * step)

/-- The component-count grid of the notebook: arange(0, n_features, 5). -/
def n_components : List ℕ := arange 0 n_features 5

/-- Translation of np.argmax on a list of rationals: the index of the first
occurrence of the maximal element (0 on the empty list). -/
def argmaxIdx : List ℚ → ℕ
  | [] => 0
  | x :: xs => if xs.getD (argmaxIdx xs) x ≤ x then 0 else argmaxIdx xs + 1

/-- Translation of np.mean on a list of per-fold scores. -/
def mean (l : List ℚ) : ℚ := l.sum / l.length

/-- A dataset is an n_samples by n_features rational matrix. -/
def Dataset : Type := Fin n_samples → Fin n_features → ℚ

/-- Deterministic oracles for the external statistical library: the per-fold
cross-validation scores of each estimator configuration on a dataset, the
MLE rank selection of PCA, and the left factor returned by the SVD used in
the synthesizer.  cvShrunkExp takes the base-10 exponent of the shrinkage
intensity. -/
structure Library where
  cvPCA : ℕ → Dataset → List ℚ
  cvFA : ℕ → Dataset → List ℚ
  cvShrunkExp : ℚ → Dataset → List ℚ
  cvLedoitWolf : Dataset → List ℚ
  pcaMLE : Dataset → ℕ
  svdU : (Fin n_features → Fin n_features → ℚ) → Fin n_features → Fin n_features → ℚ

/-- Translation of compute_scores: loop over the shared grid, appending for
each grid value the mean cross-validated score of PCA and of Factor Analysis
configured with that many components. -/
def compute_scores (lib : Library) (X : Dataset) : List ℚ × List ℚ :=
  n_components.foldl
    (fun acc n => (acc.1 ++ [mean (lib.cvPCA n X)], acc.2 ++ [mean (lib.cvFA n X)]))
    ([], [])

/-- Per-dataset results printed by the main loop: the two score sequences,
the argmax-selected component counts for PCA and Factor Analysis, and the
MLE-selected rank. -/
structure RunResult where
  pca_scores : List ℚ
  fa_scores : List ℚ
  n_components_pca : ℕ
  n_components_fa : ℕ
  n_components_pca_mle : ℕ

/-- Translation of the per-dataset body of the main loop: compute the score
sequences, select the grid value at the argmax of each sequence, and fit PCA
with MLE component selection. -/
def analyze (lib : Library) (X : Dataset) : RunResult :=
  let s := compute_scores lib X
  { pca_scores := s.1
    fa_scores := s.2
    n_components_pca := n_components.getD (argmaxIdx s.1) 0
    n_components_fa := n_components.getD (argmaxIdx s.2) 0
    n_components_pca_mle := lib.pcaMLE X }

/-- Draws consumed from the seeded random source, in the order the notebook
takes them: randn(n_features, n_features) feeding the SVD, randn(n_samples,
rank) for the latent factors, randn(n_samples, n_features) for the
homoscedastic noise, rand(n_features) for the per-feature scales, and
randn(n_samples, n_features) for the heteroscedastic noise. -/
structure Draws where
  gU : Fin n_features → Fin n_features → ℚ
  gLatent : Fin n_samples → Fin rank → ℚ
  gHomo : Fin n_samples → Fin n_features → ℚ
  uScale : Fin n_features → ℚ
  gHetero : Fin n_samples → Fin n_features → ℚ

/-- Products of the data-synthesis cell. -/
structure SynthData where
  X : Dataset
  X_homo : Dataset
  X_hetero : Dataset
  sigmas : Fin n_features → ℚ

/-- Translation of the data-synthesis cell: U is the left factor of the SVD
of a random square matrix, X projects the latent factors through the first
rank columns of U (X = gLatent * U[:, :rank].T), X_homo adds noise of fixed
scale sigma, and X_hetero adds per-feature noise of scale
sigmas = sigma * rand(n_features) + sigma / 2. -/
def synthesize
    (svdU : (Fin n_features → Fin n_features → ℚ) → Fin n_features → Fin n_features → ℚ)
    (d : Draws) : SynthData :=
  let U := svdU d.gU
  let X : Dataset := fun i j => ∑ k : Fin rank, d.gLatent i k * U j (Fin.castLE (by decide) k)
  let sigmas : Fin n_features → ℚ := fun j => sigma * d.uScale j + sigma / 2
  { X := X
    X_homo := fun i j => X i j + sigma * d.gHomo i j
    X_hetero := fun i j => X i j + d.gHetero i j * sigmas j
    sigmas := sigmas }

/-- Full pipeline as a function of the seed: synthesize the datasets from
the seeded draws, then analyze each dataset as the main loop does. -/
def runPipeline (lib : Library) (draws : ℕ → Draws) (seed : ℕ) :
    SynthData × RunResult × RunResult :=
  let sd := synthesize lib.svdU (draws seed)
  (sd, analyze lib sd.X_homo, analyze lib sd.X_hetero)

/-- Translation of numpy linspace: num evenly spaced rationals from a to b
inclusive. -/
def linspace (a b : ℚ) (num : ℕ) : List ℚ :=
  (List.range num).map (fun k : ℕ => a + (b - a) * (k : ℚ) / ((num : ℚ) - 1))

/-- Base-10 exponents of the shrinkage candidates: the notebook's
shrinkages = np.logspace(-2, 0, 30) is 10 raised to linspace(-2, 0, 30)
pointwise, so the candidate set is faithfully represented by its exponent
list. -/
def shrinkage_exponents : List ℚ := linspace (-2) 0 30

/-- Contract of the external GridSearchCV collaborator, modelled from its
interface: exhaustively score every candidate by mean cross-validated
likelihood and keep the first maximiser. -/
def gridSearchBestExp (cv : ℚ → List ℚ) : ℚ :=
  shrinkage_exponents.getD (argmaxIdx (shrinkage_exponents.map (fun e => mean (cv e)))) 0

/-- Translation of shrunk_cov_score, with shrinkage candidates represented
by their exponents: grid-search the best shrinkage intensity, then return
the mean cross-validated score of the selected best estimator. -/
def shrunk_cov_score (lib : Library) (X : Dataset) : ℚ :=
  mean (lib.cvShrunkExp (gridSearchBestExp (fun e => lib.cvShrunkExp e X)) X)

/-- Translation of lw_score: mean cross-validated score of the Ledoit-Wolf
estimator. -/
def lw_score (lib : Library) (X : Dataset) : ℚ :=
  mean (lib.cvLedoitWolf X)

/-! Helper lemmas about argmaxIdx, getD and the score loop. -/

theorem argmaxIdx_nil : argmaxIdx [] = 0 := rfl

theorem argmaxIdx_cons (x : ℚ) (xs : List ℚ) :
    argmaxIdx (x :: xs)
      = if xs.getD (argmaxIdx xs) x ≤ x then 0 else argmaxIdx xs + 1 := rfl

theorem argmaxIdx_lt_length (l : List ℚ) (h : l ≠ []) : argmaxIdx l < l.length := by
  induction l with
  | nil => exact absurd rfl h
  | cons x xs ih =>
    rw [argmaxIdx_cons]
    by_cases hxs : xs = []
    · subst hxs; simp
    · have hlt := ih hxs
      split
      · simp
      · simpa using Nat.succ_lt_succ hlt

theorem getD_default_irrel (l : List ℚ) (i : ℕ) (hi : i < l.length) (d e : ℚ) :
    l.getD i d = l.getD i e := by
  rw [List.getD_eq_getElem l d hi, List.getD_eq_getElem l e hi]

theorem getD_le_argmaxIdx (l : List ℚ) (i : ℕ) (hi : i < l.length) :
    l.getD i 0 ≤ l.getD (argmaxIdx l) 0 := by
  induction l generalizing i with
  | nil => simp at hi
  | cons x xs ih =>
    rw [argmaxIdx_cons]
    by_cases hxs : xs = []
    · subst hxs
      simp only [List.length_cons, List.length_nil, Nat.lt_succ_iff, Nat.le_zero] at hi
      subst hi
      simp
    · have hj : argmaxIdx xs < xs.length := argmaxIdx_lt_length xs hxs
      have hdef : xs.getD (argmaxIdx xs) x = xs.getD (argmaxIdx xs) 0 :=
        getD_default_irrel xs (argmaxIdx xs) hj x 0
      rcases le_or_lt (xs.getD (argmaxIdx xs) x) x with hle | hgt
      · rw [if_pos hle, List.getD_cons_zero]
        match i with
        | 0 => simp
        | i + 1 =>
          have hi' : i < xs.length := by
            simpa using Nat.lt_of_succ_lt_succ (by simpa using hi)
          rw [List.getD_cons_succ]
          exact le_trans (ih i hi') (le_trans (le_of_eq hdef.symm) hle)
      · rw [if_neg (not_le.mpr hgt), List.getD_cons_succ]
        match i with
        | 0 =>
          rw [List.getD_cons_zero]
          exact le_of_lt (hdef ▸ hgt)
        | i + 1 =>
          have hi' : i < xs.length := by
            simpa using Nat.lt_of_succ_lt_succ (by simpa using hi)
          rw [List.getD_cons_succ]
          exact ih i hi'

theorem getD_lt_of_lt_argmaxIdx (l : List ℚ) (i : ℕ) (hi : i < argmaxIdx l) :
    l.getD i 0 < l.getD (argmaxIdx l) 0 := by
  induction l generalizing i with
  | nil => simp [argmaxIdx_nil] at hi
  | cons x xs ih =>
    rw [argmaxIdx_cons] at hi ⊢
    by_cases hxs : xs = []
    · subst hxs
      simp at hi
    · have hj : argmaxIdx xs < xs.length := argmaxIdx_lt_length xs hxs
      have hdef : xs.getD (argmaxIdx xs) x = xs.getD (argmaxIdx xs) 0 :=
        getD_default_irrel xs (argmaxIdx xs) hj x 0
      rcases le_or_lt (xs.getD (argmaxIdx xs) x) x with hle | hgt
      · rw [if_pos hle] at hi
        exact absurd hi (Nat.not_lt_zero i)
      · rw [if_neg (not_le.mpr hgt)] at hi ⊢
        rw [List.getD_cons_succ]
        match i with
        | 0 =>
          rw [List.getD_cons_zero]
          exact hdef ▸ hgt
        | i + 1 =>
          rw [List.getD_cons_succ]
          exact ih i (Nat.lt_of_succ_lt_succ hi)

theorem getD_map_of_lt {α : Type} (f : α → ℚ) (l : List α) (dα : α) (dq : ℚ)
    (i : ℕ) (hi : i < l.length) :
    (l.map f).getD i dq = f (l.getD i dα) := by
  rw [List.getD_eq_getElem (l.map f) dq (by simpa using hi),
    List.getD_eq_getElem l dα hi, List.getElem_map]

theorem foldl_append_pair (f g : ℕ → ℚ) :
    ∀ (l : List ℕ) (a b : List ℚ),
      l.foldl (fun acc n => (acc.1 ++ [f n], acc.2 ++ [g n])) (a, b)
        = (a ++ l.map f, b ++ l.map g) := by
  intro l
  induction l with
  | nil => intro a b; simp
  | cons n l ih =>
    intro a b
    rw [List.foldl_cons, ih]
    simp

theorem compute_scores_eq_map (lib : Library) (X : Dataset) :
    compute_scores lib X
      = (n_components.map (fun n => mean (lib.cvPCA n X)),
         n_components.map (fun n => mean (lib.cvFA n X))) := by
  have h := foldl_append_pair (fun n => mean (lib.cvPCA n X))
    (fun n => mean (lib.cvFA n X)) n_components [] []
  simpa [compute_scores] using h

theorem n_components_length : n_components.length = 10 := rfl

theorem n_components_getD (i : ℕ) (hi : i < 10) :
    n_components.getD i 0 = 5 * i := by
  interval_cases i <;> rfl

theorem n_components_getD_mono (a b : ℕ) (hab : a ≤ b) (hb : b < 10) :
    n_components.getD a 0 ≤ n_components.getD b 0 := by
  rw [n_components_getD a (lt_of_le_of_lt hab hb), n_components_getD b hb]
  omega

/-- Check that consecutive elements of a list of naturals differ by a
constant step. -/
def constStepB (st : ℕ) : List ℕ → Bool
  | [] => true
  | [_] => true
  | a :: b :: l => (b == a + st) && constStepB st (b :: l)

theorem mean_singleton (x : ℚ) : mean [x] = x := by
  norm_num [mean]

theorem compute_scores_fst_length (lib : Library) (X : Dataset) :
    (compute_scores lib X).1.length = n_components.length := by
  rw [compute_scores_eq_map]
  simp

theorem compute_scores_snd_length (lib : Library) (X : Dataset) :
    (compute_scores lib X).2.length = n_components.length := by
  rw [compute_scores_eq_map]
  simp

theorem compute_scores_fst_getD (lib : Library) (X : Dataset) (i : ℕ)
    (hi : i < n_components.length) :
    (compute_scores lib X).1.getD i 0 = mean (lib.cvPCA (n_components.getD i 0) X) := by
  rw [compute_scores_eq_map]
  exact getD_map_of_lt (fun n => mean (lib.cvPCA n X)) n_components 0 0 i hi

theorem compute_scores_snd_getD (lib : Library) (X : Dataset) (i : ℕ)
    (hi : i < n_components.length) :
    (compute_scores lib X).2.getD i 0 = mean (lib.cvFA (n_components.getD i 0) X) := by
  rw [compute_scores_eq_map]
  exact getD_map_of_lt (fun n => mean (lib.cvFA n X)) n_components 0 0 i hi

theorem compute_scores_fst_ne_nil (lib : Library) (X : Dataset) :
    (compute_scores lib X).1 ≠ [] := by
  intro h
  have := compute_scores_fst_length lib X
  rw [h] at this
  exact absurd this.symm (by decide)

theorem compute_scores_snd_ne_nil (lib : Library) (X : Dataset) :
    (compute_scores lib X).2 ≠ [] := by
  intro h
  have := compute_scores_snd_length lib X
  rw [h] at this
  exact absurd this.symm (by decide)

/-! Concrete instances used to instantiate universally quantified theorems
at specific inputs. -/

/-- The all-zero dataset. -/
def X0 : Dataset := fun _ _ => 0

/-- A simple deterministic library oracle: every cross-validation call
returns one fold whose score is the component count (or the exponent). -/
def lib0 : Library where
  cvPCA := fun n _ => [(n : ℚ)]
  cvFA := fun n _ => [(n : ℚ)]
  cvShrunkExp := fun e _ => [e]
  cvLedoitWolf := fun _ => [0]
  pcaMLE := fun _ => 0
  svdU := fun _ => fun _ _ => 0

/-- A library oracle whose PCA scores tie at the first two grid points. -/
def libTie : Library where
  cvPCA := fun n _ => [if n ≤ 5 then 1 else 0]
  cvFA := fun n _ => [(n : ℚ)]
  cvShrunkExp := fun e _ => [e]
  cvLedoitWolf := fun _ => [0]
  pcaMLE := fun _ => 0
  svdU := fun _ => fun _ _ => 0

/-- All-zero draws from the random source. -/
def draws0 : ℕ → Draws := fun _ =>
  { gU := fun _ _ => 0
    gLatent := fun _ _ => 0
    gHomo := fun _ _ => 0
    uScale := fun _ => 0
    gHetero := fun _ _ => 0 }

theorem compute_scores_lib0_fst :
    (compute_scores lib0 X0).1 = n_components.map (fun n => (n : ℚ)) := by
  rw [compute_scores_eq_map]
  exact List.map_congr_left fun n _ => mean_singleton _

/-! Claim C4: the component-count grid. -/

/-- The grid property as the claim states it: first element 0, constant
step 5, and the grid reaches the feature count. -/
def gridClaim : Prop :=
  n_components.getD 0 0 = 0
  ∧ constStepB 5 n_components = true
  ∧ n_features ∈ n_components

instance : Decidable gridClaim :=
  inferInstanceAs (Decidable (n_components.getD 0 0 = 0
    ∧ constStepB 5 n_components = true
    ∧ n_features ∈ n_components))

/-- C4 counterexample: the grid as stated by the claim fails on the code,
because arange(0, 50, 5) = [0, 5, ..., 45] never reaches the feature count
50 — its largest element is 45. -/
theorem c4_grid_counterexample : ¬ gridClaim := by decide

/-- C4 (amended): the grid starts at 0 and increases by the constant step
5, but its half-open range stops below the feature count: the last element
is 45 = n_features - 5, every element is strictly below n_features, and the
grid has 10 elements. -/
theorem c4_grid_amended :
    n_components.getD 0 0 = 0
    ∧ constStepB 5 n_components = true
    ∧ n_components.getLast? = some (n_features - 5)
    ∧ (∀ x ∈ n_components, x < n_features)
    ∧ n_components.length = 10 := by decide

/-! Claim C2: score sequences are aligned with the grid. -/

/-- C2: for every library oracle and dataset, compute_scores returns two
sequences whose lengths both equal the grid length, and the i-th entry of
each sequence is the mean cross-validated score of the respective model
fitted with n_components[i] components. -/
theorem c2_scores_aligned (lib : Library) (X : Dataset) :
    (compute_scores lib X).1.length = n_components.length
    ∧ (compute_scores lib X).2.length = n_components.length
    ∧ ∀ i, i < n_components.length →
        (compute_scores lib X).1.getD i 0 = mean (lib.cvPCA (n_components.getD i 0) X)
        ∧ (compute_scores lib X).2.getD i 0 = mean (lib.cvFA (n_components.getD i 0) X) := by
  refine ⟨compute_scores_fst_length lib X, compute_scores_snd_length lib X, ?_⟩
  intro i hi
  exact ⟨compute_scores_fst_getD lib X i hi, compute_scores_snd_getD lib X i hi⟩

/-- C2 witness: at the concrete oracle lib0 and the zero dataset, index 3
is in range, the alignment equation holds there, and the entry evaluates to
the concrete score 15 = mean of the one-fold list [n_components[3]]. -/
theorem c2_scores_aligned_witness :
    3 < n_components.length
    ∧ (compute_scores lib0 X0).1.getD 3 0 = mean (lib0.cvPCA (n_components.getD 3 0) X0)
    ∧ (compute_scores lib0 X0).1.getD 3 0 = 15 := by
  refine ⟨by decide, ((c2_scores_aligned lib0 X0).2.2 3 (by decide)).1, ?_⟩
  rw [compute_scores_lib0_fst]
  decide

/-! Claim C6: argmax selection of the best component count. -/

/-- C6: for every library oracle and dataset, the reported best component
counts are the grid values at the argmax indices of the respective mean
cross-validated score sequences, those indices are in range and maximise
their sequences, and each score entry is the average of the per-fold
scores. -/
theorem c6_argmax_selection (lib : Library) (X : Dataset) :
    (analyze lib X).n_components_pca
      = n_components.getD (argmaxIdx (compute_scores lib X).1) 0
    ∧ (analyze lib X).n_components_fa
      = n_components.getD (argmaxIdx (compute_scores lib X).2) 0
    ∧ argmaxIdx (compute_scores lib X).1 < (compute_scores lib X).1.length
    ∧ argmaxIdx (compute_scores lib X).2 < (compute_scores lib X).2.length
    ∧ (∀ i, i < (compute_scores lib X).1.length →
        (compute_scores lib X).1.getD i 0
          ≤ (compute_scores lib X).1.getD (argmaxIdx (compute_scores lib X).1) 0)
    ∧ (∀ i, i < (compute_scores lib X).2.length →
        (compute_scores lib X).2.getD i 0
          ≤ (compute_scores lib X).2.getD (argmaxIdx (compute_scores lib X).2) 0)
    ∧ ∀ i, i < n_components.length →
        (compute_scores lib X).1.getD i 0 = mean (lib.cvPCA (n_components.getD i 0) X)
        ∧ (compute_scores lib X).2.getD i 0 = mean (lib.cvFA (n_components.getD i 0) X) := by
  refine ⟨rfl, rfl, argmaxIdx_lt_length _ (compute_scores_fst_ne_nil lib X),
    argmaxIdx_lt_length _ (compute_scores_snd_ne_nil lib X), ?_, ?_, ?_⟩
  · intro i hi
    exact getD_le_argmaxIdx _ i hi
  · intro i hi
    exact getD_le_argmaxIdx _ i hi
  · intro i hi
    exact ⟨compute_scores_fst_getD lib X i hi, compute_scores_snd_getD lib X i hi⟩

/-- C6 witness: with the oracle lib0 on the zero dataset the scores are the
grid values themselves, so argmax selects index 9 and the reported best
component count is 45; the maximality bound holds concretely at index 2. -/
theorem c6_argmax_selection_witness :
    (analyze lib0 X0).n_components_pca
      = n_components.getD (argmaxIdx (compute_scores lib0 X0).1) 0
    ∧ (analyze lib0 X0).n_components_pca = 45
    ∧ 2 < (compute_scores lib0 X0).1.length
    ∧ (compute_scores lib0 X0).1.getD 2 0
      ≤ (compute_scores lib0 X0).1.getD (argmaxIdx (compute_scores lib0 X0).1) 0 := by
  refine ⟨(c6_argmax_selection lib0 X0).1, ?_, ?_,
    (c6_argmax_selection lib0 X0).2.2.2.2.1 2 ?_⟩
  · rw [(c6_argmax_selection lib0 X0).1, compute_scores_lib0_fst]
    decide
  · rw [compute_scores_lib0_fst]
    decide
  · rw [compute_scores_lib0_fst]
    decide

/-! Claim C1: determinism of the pipeline. -/

/-- C1: the pipeline has no source of nondeterminism besides the seeded
random stream: for any library oracles and any deterministic seed-to-draws
stream, two runs with equal seeds produce bit-identical X_homo and
X_hetero, identical score sequences and identical selected ranks for both
datasets (the analysis results are equal componentwise and the whole run
output is equal). -/
theorem c1_pipeline_deterministic (lib : Library) (draws : ℕ → Draws) (s t : ℕ)
    (h : s = t) :
    (runPipeline lib draws s).1.X_homo = (runPipeline lib draws t).1.X_homo
    ∧ (runPipeline lib draws s).1.X_hetero = (runPipeline lib draws t).1.X_hetero
    ∧ (runPipeline lib draws s).2.1 = (runPipeline lib draws t).2.1
    ∧ (runPipeline lib draws s).2.2 = (runPipeline lib draws t).2.2
    ∧ runPipeline lib draws s = runPipeline lib draws t := by
  subst h
  exact ⟨rfl, rfl, rfl, rfl, rfl⟩

/-- C1 witness: the theorem applied to the concrete oracle lib0, the
all-zero draw stream and the notebook's fixed seed 42 twice. -/
theorem c1_pipeline_deterministic_witness :
    (42 : ℕ) = 42 ∧ runPipeline lib0 draws0 42 = runPipeline lib0 draws0 42 :=
  ⟨rfl, (c1_pipeline_deterministic lib0 draws0 42 42 rfl).2.2.2.2⟩

/-! Claim C5: heteroscedastic noise scales. -/

/-- A trivial SVD oracle. -/
def svdU0 : (Fin n_features → Fin n_features → ℚ) → Fin n_features → Fin n_features → ℚ :=
  fun _ => fun _ _ => 0

/-- Draws whose uniform variates all equal one half. -/
def drawsHalf : Draws :=
  { gU := fun _ _ => 0
    gLatent := fun _ _ => 0
    gHomo := fun _ _ => 0
    uScale := fun _ => 1 / 2
    gHetero := fun _ _ => 0 }

/-- C5: whenever the uniform variates rand(n_features) lie in [0, 1) — the
range of the library's rand — every per-feature noise scale
sigmas[j] = sigma * rand[j] + sigma / 2 satisfies
sigma / 2 <= sigmas[j] < 3 * sigma / 2, and each entry of X_hetero is the
signal entry plus the Gaussian draw scaled by that feature's own scale. -/
theorem c5_sigmas_bounded
    (svdU : (Fin n_features → Fin n_features → ℚ) → Fin n_features → Fin n_features → ℚ)
    (d : Draws) (h : ∀ j, 0 ≤ d.uScale j ∧ d.uScale j < 1) :
    (∀ j, (synthesize svdU d).sigmas j = sigma * d.uScale j + sigma / 2)
    ∧ (∀ j, sigma / 2 ≤ (synthesize svdU d).sigmas j
        ∧ (synthesize svdU d).sigmas j < 3 * sigma / 2)
    ∧ ∀ i j, (synthesize svdU d).X_hetero i j
        = (synthesize svdU d).X i j + d.gHetero i j * (synthesize svdU d).sigmas j := by
  refine ⟨fun j => rfl, fun j => ?_, fun i j => rfl⟩
  have hj := h j
  have hs : (synthesize svdU d).sigmas j = sigma * d.uScale j + sigma / 2 := rfl
  rw [hs]
  unfold sigma
  constructor
  · linarith [hj.1]
  · linarith [hj.2]

/-- C5 witness: the theorem applied to the trivial SVD oracle and draws
whose uniform variates are all one half, evaluated at feature 0: the scale
is 1 = 1 * (1/2) + 1/2 and it lies in [1/2, 3/2). -/
theorem c5_sigmas_bounded_witness :
    (0 ≤ drawsHalf.uScale ⟨0, by decide⟩ ∧ drawsHalf.uScale ⟨0, by decide⟩ < 1)
    ∧ sigma / 2 ≤ (synthesize svdU0 drawsHalf).sigmas ⟨0, by decide⟩
    ∧ (synthesize svdU0 drawsHalf).sigmas ⟨0, by decide⟩ < 3 * sigma / 2 := by
  have h : ∀ j : Fin n_features, 0 ≤ drawsHalf.uScale j ∧ drawsHalf.uScale j < 1 := by
    intro j
    constructor <;> norm_num [drawsHalf]
  exact ⟨h ⟨0, by decide⟩,
    ((c5_sigmas_bounded svdU0 drawsHalf h).2.1 ⟨0, by decide⟩).1,
    ((c5_sigmas_bounded svdU0 drawsHalf h).2.1 ⟨0, by decide⟩).2⟩

/-! Claim C10: tie-breaking of the argmax selection. -/

theorem compute_scores_libTie_fst :
    (compute_scores libTie X0).1
      = n_components.map (fun n => if n ≤ 5 then (1 : ℚ) else 0) := by
  rw [compute_scores_eq_map]
  exact List.map_congr_left fun n _ => mean_singleton _

/-- C10: if an index i attains the maximum of the mean PCA score sequence,
then the argmax index is at most i — np.argmax takes the first maximising
index — and hence the selected component count is at most the grid value at
i; so among tied grid points the smallest component count is selected. -/
theorem c10_argmax_tie_break (lib : Library) (X : Dataset) (i : ℕ)
    (hi : i < (compute_scores lib X).1.length)
    (hmax : ∀ j, j < (compute_scores lib X).1.length →
      (compute_scores lib X).1.getD j 0 ≤ (compute_scores lib X).1.getD i 0) :
    argmaxIdx (compute_scores lib X).1 ≤ i
    ∧ (analyze lib X).n_components_pca ≤ n_components.getD i 0 := by
  have hlen : (compute_scores lib X).1.length = n_components.length :=
    compute_scores_fst_length lib X
  have hle : argmaxIdx (compute_scores lib X).1 ≤ i := by
    by_contra hgt
    push_neg at hgt
    have h1 : (compute_scores lib X).1.getD i 0
        < (compute_scores lib X).1.getD (argmaxIdx (compute_scores lib X).1) 0 :=
      getD_lt_of_lt_argmaxIdx _ i hgt
    have h2 : (compute_scores lib X).1.getD (argmaxIdx (compute_scores lib X).1) 0
        ≤ (compute_scores lib X).1.getD i 0 :=
      hmax _ (argmaxIdx_lt_length _ (compute_scores_fst_ne_nil lib X))
    exact absurd (lt_of_lt_of_le h1 h2) (lt_irrefl _)
  refine ⟨hle, ?_⟩
  show n_components.getD (argmaxIdx (compute_scores lib X).1) 0 ≤ n_components.getD i 0
  exact n_components_getD_mono _ i hle (by
    have : i < n_components.length := hlen ▸ hi
    simpa [n_components_length] using this)

/-- C10 witness: with the oracle libTie on the zero dataset the PCA scores
tie with value 1 at grid points 0 and 5 (indices 0 and 1); index 1 attains
the maximum, the theorem bounds the argmax by 1, and the selected component
count evaluates to 0, the smaller of the tied grid values. -/
theorem c10_argmax_tie_break_witness :
    (1 < (compute_scores libTie X0).1.length
    ∧ (compute_scores libTie X0).1.getD 0 0 = (compute_scores libTie X0).1.getD 1 0)
    ∧ (argmaxIdx (compute_scores libTie X0).1 ≤ 1
       ∧ (analyze libTie X0).n_components_pca ≤ n_components.getD 1 0)
    ∧ (analyze libTie X0).n_components_pca = 0 := by
  have h1 : 1 < (compute_scores libTie X0).1.length := by
    rw [compute_scores_libTie_fst]
    decide
  have hmax : ∀ j, j < (compute_scores libTie X0).1.length →
      (compute_scores libTie X0).1.getD j 0 ≤ (compute_scores libTie X0).1.getD 1 0 := by
    rw [compute_scores_libTie_fst]
    decide
  have htie : (compute_scores libTie X0).1.getD 0 0 = (compute_scores libTie X0).1.getD 1 0 := by
    rw [compute_scores_libTie_fst]
    decide
  refine ⟨⟨h1, htie⟩, c10_argmax_tie_break libTie X0 1 h1 hmax, ?_⟩
  show n_components.getD (argmaxIdx (compute_scores libTie X0).1) 0 = 0
  rw [compute_scores_libTie_fst]
  decide

/-! Claim C7: the shrinkage baseline scorer. -/

theorem shrinkage_exponents_length : shrinkage_exponents.length = 30 := by
  simp [shrinkage_exponents, linspace]

theorem shrinkage_exponents_getD (k : ℕ) (hk : k < 30) :
    shrinkage_exponents.getD k 0 = -2 + 2 * k / 29 := by
  unfold shrinkage_exponents linspace
  rw [getD_map_of_lt _ (List.range 30) 0 0 k (by simpa using hk)]
  have hr : (List.range 30).getD k 0 = k := by
    rw [List.getD_eq_getElem _ _ (by simpa using hk), List.getElem_range]
  rw [hr]
  norm_num

/-- C7: the candidate set of the shrinkage search has exactly 30 elements,
its exponents run from -2 to 0 in equal steps of 2/29 (i.e. the intensities
are logarithmically spaced between 10^-2 and 10^0), grid search selects a
candidate from the set that maximises the mean cross-validated score, and
shrunk_cov_score returns the mean of the per-fold scores of the re-scored
selected best estimator — a single scalar. -/
theorem c7_shrunk_cov_search (lib : Library) (X : Dataset) :
    shrinkage_exponents.length = 30
    ∧ shrinkage_exponents.getD 0 0 = -2
    ∧ shrinkage_exponents.getD 29 0 = 0
    ∧ (∀ k, k < 30 → shrinkage_exponents.getD k 0 = -2 + 2 * k / 29)
    ∧ (∃ k, k < 30 ∧ gridSearchBestExp (fun e => lib.cvShrunkExp e X)
          = shrinkage_exponents.getD k 0)
    ∧ (∀ k, k < 30 →
        mean (lib.cvShrunkExp (shrinkage_exponents.getD k 0) X)
          ≤ mean (lib.cvShrunkExp (gridSearchBestExp (fun e => lib.cvShrunkExp e X)) X))
    ∧ shrunk_cov_score lib X
        = mean (lib.cvShrunkExp (gridSearchBestExp (fun e => lib.cvShrunkExp e X)) X) := by
  have hm : (shrinkage_exponents.map
      (fun e => mean (lib.cvShrunkExp e X))).length = 30 := by
    simpa using shrinkage_exponents_length
  have hmne : shrinkage_exponents.map (fun e => mean (lib.cvShrunkExp e X)) ≠ [] := by
    intro hnil
    rw [hnil] at hm
    exact absurd hm.symm (by decide)
  have harg : argmaxIdx (shrinkage_exponents.map (fun e => mean (lib.cvShrunkExp e X))) < 30 :=
    hm ▸ argmaxIdx_lt_length _ hmne
  have hexp : shrinkage_exponents.length = 30 := shrinkage_exponents_length
  refine ⟨hexp, by rw [shrinkage_exponents_getD 0 (by norm_num)]; norm_num,
    by rw [shrinkage_exponents_getD 29 (by norm_num)]; norm_num,
    fun k hk => shrinkage_exponents_getD k hk,
    ⟨argmaxIdx (shrinkage_exponents.map (fun e => mean (lib.cvShrunkExp e X))), harg, rfl⟩,
    ?_, rfl⟩
  intro k hk
  have hk' : k < shrinkage_exponents.length := hexp ▸ hk
  have h1 : mean (lib.cvShrunkExp (shrinkage_exponents.getD k 0) X)
      = (shrinkage_exponents.map (fun e => mean (lib.cvShrunkExp e X))).getD k 0 :=
    (getD_map_of_lt (fun e => mean (lib.cvShrunkExp e X)) shrinkage_exponents 0 0 k hk').symm
  have h2 : mean (lib.cvShrunkExp (gridSearchBestExp (fun e => lib.cvShrunkExp e X)) X)
      = (shrinkage_exponents.map (fun e => mean (lib.cvShrunkExp e X))).getD
          (argmaxIdx (shrinkage_exponents.map (fun e => mean (lib.cvShrunkExp e X)))) 0 :=
    (getD_map_of_lt (fun e => mean (lib.cvShrunkExp e X)) shrinkage_exponents 0 0 _
      (hexp ▸ harg)).symm
  rw [h1, h2]
  exact getD_le_argmaxIdx _ k (by rw [hm]; exact hk)

/-- C7 witness: the theorem applied to the concrete oracle lib0 and the
zero dataset, with the maximality instance taken at candidate index 0. -/
theorem c7_shrunk_cov_search_witness :
    0 < 30
    ∧ shrinkage_exponents.getD 0 0 = -2
    ∧ (∃ k, k < 30 ∧ gridSearchBestExp (fun e => lib0.cvShrunkExp e X0)
          = shrinkage_exponents.getD k 0)
    ∧ mean (lib0.cvShrunkExp (shrinkage_exponents.getD 0 0) X0)
        ≤ mean (lib0.cvShrunkExp (gridSearchBestExp (fun e => lib0.cvShrunkExp e X0)) X0) :=
  ⟨by decide, (c7_shrunk_cov_search lib0 X0).2.1,
    (c7_shrunk_cov_search lib0 X0).2.2.2.2.1,
    (c7_shrunk_cov_search lib0 X0).2.2.2.2.2.1 0 (by decide)⟩

/-! Claim C8: a component count of zero is a valid grid configuration. -/

/-- Fallible variant of the compute_scores loop: each library fit-and-score
call may fail, and a failure at any grid point aborts the whole loop the
way a raised exception would in the source. -/
def compute_scores_opt (cvP cvF : ℕ → Option (List ℚ)) : Option (List ℚ × List ℚ) :=
  n_components.foldl
    (fun acc n =>
      acc.bind fun s =>
        (cvP n).bind fun p =>
          (cvF n).map fun f => (s.1 ++ [mean p], s.2 ++ [mean f]))
    (some ([], []))

theorem foldl_opt_eq (cvP cvF : ℕ → Option (List ℚ)) :
    ∀ (l : List ℕ) (a b : List ℚ),
      (∀ n ∈ l, (cvP n).isSome ∧ (cvF n).isSome) →
      l.foldl
        (fun acc n =>
          acc.bind fun s =>
            (cvP n).bind fun p =>
              (cvF n).map fun f => (s.1 ++ [mean p], s.2 ++ [mean f]))
        (some (a, b))
      = some (a ++ l.map (fun n => mean ((cvP n).getD [])),
              b ++ l.map (fun n => mean ((cvF n).getD []))) := by
  intro l
  induction l with
  | nil =>
    intro a b _
    simp
  | cons n l ih =>
    intro a b h
    have hn := h n (List.mem_cons_self n l)
    obtain ⟨p, hp⟩ := Option.isSome_iff_exists.mp hn.1
    obtain ⟨f, hf⟩ := Option.isSome_iff_exists.mp hn.2
    rw [List.foldl_cons]
    have hstep : ((some (a, b)).bind fun s =>
          (cvP n).bind fun p =>
            (cvF n).map fun f => (s.1 ++ [mean p], s.2 ++ [mean f]))
        = some (a ++ [mean p], b ++ [mean f]) := by
      simp [hp, hf]
    rw [hstep, ih _ _ (fun m hm => h m (List.mem_cons_of_mem n hm))]
    simp [hp, hf]

/-- C8: zero is the first grid point, and whenever the library fit succeeds
at every grid configuration — as it does in the notebook's recorded run —
the loop completes, producing sequences of full grid length whose index-0
entries are the mean scores of the n = 0 fits of the two model families. -/
theorem c8_zero_component_valid (cvP cvF : ℕ → Option (List ℚ))
    (h : ∀ n ∈ n_components, (cvP n).isSome ∧ (cvF n).isSome) :
    n_components.getD 0 0 = 0
    ∧ (cvP 0).isSome
    ∧ (cvF 0).isSome
    ∧ ∃ ps fs, compute_scores_opt cvP cvF = some (ps, fs)
        ∧ ps.length = n_components.length
        ∧ fs.length = n_components.length
        ∧ ps.getD 0 0 = mean ((cvP 0).getD [])
        ∧ fs.getD 0 0 = mean ((cvF 0).getD []) := by
  have h0 : (0 : ℕ) ∈ n_components := by decide
  have hg : n_components.getD 0 0 = 0 := by decide
  refine ⟨hg, (h 0 h0).1, (h 0 h0).2, ?_⟩
  refine ⟨n_components.map (fun n => mean ((cvP n).getD [])),
    n_components.map (fun n => mean ((cvF n).getD [])), ?_, by simp, by simp, ?_, ?_⟩
  · have he := foldl_opt_eq cvP cvF n_components [] [] h
    simpa [compute_scores_opt] using he
  · rw [getD_map_of_lt (fun n => mean ((cvP n).getD [])) n_components 0 0 0 (by decide), hg]
  · rw [getD_map_of_lt (fun n => mean ((cvF n).getD [])) n_components 0 0 0 (by decide), hg]

/-- A fit-and-score oracle that succeeds at every component count. -/
def cvSome : ℕ → Option (List ℚ) := fun n => some [(n : ℚ)]

/-- C8 witness: the theorem applied to the everywhere-successful concrete
oracle cvSome for both model families. -/
theorem c8_zero_component_valid_witness :
    (cvSome 0).isSome
    ∧ ∃ ps fs, compute_scores_opt cvSome cvSome = some (ps, fs)
        ∧ ps.length = n_components.length
        ∧ fs.length = n_components.length
        ∧ ps.getD 0 0 = mean ((cvSome 0).getD [])
        ∧ fs.getD 0 0 = mean ((cvSome 0).getD []) :=
  ⟨rfl, (c8_zero_component_valid cvSome cvSome (by decide)).2.2.2⟩

/-! Claim C9: no entity is mutated after creation. -/

/-- Python min over a nonempty numeric list. -/
def listMinQ (l : List ℚ) : ℚ := l.foldl min (l.headD 0)

/-- Python max over a nonempty numeric list. -/
def listMaxQ (l : List ℚ) : ℚ := l.foldl max (l.headD 0)

/-- Python min over a nonempty list of naturals. -/
def listMinN (l : List ℕ) : ℕ := l.foldl min (l.headD 0)

/-- Python max over a nonempty list of naturals. -/
def listMaxN (l : List ℕ) : ℕ := l.foldl max (l.headD 0)

/-- Kind labels of the chart traces built in the loop body, replacing the
name and style strings of the source. -/
inductive TraceKind
  | pcaScoresTr
  | faScoresTr
  | truthTr
  | pcaCVTr
  | faCVTr
  | pcaMLETr
  | shrunkCovTr
  | ledoitWolfTr

/-- A chart trace as handed to the plotting library: a kind label with its
x and y data. -/
structure Trace where
  kind : TraceKind
  x : List ℚ
  y : List ℚ

/-- The mutable state of the plotting cell: the five entities created by
the earlier cells together with the accumulators the loop assigns to — the
per-dataset trace lists and the counter i. -/
structure LoopState where
  X : Dataset
  X_homo : Dataset
  X_hetero : Dataset
  sigmas : Fin n_features → ℚ
  grid : List ℕ
  data : List (List Trace)
  idx : ℕ

/-- Translation of one iteration of the plotting loop over dataset Xd:
compute the scores and the selected ranks, build the eight traces —
including the y-range [min(pca_scores)-1, max(fa_scores)+1] reference lines
and the two baseline horizontals — and assign only data[i] and i. -/
def loopBody (lib : Library) (s : LoopState) (Xd : Dataset) : LoopState :=
  let sc := compute_scores lib Xd
  let r := analyze lib Xd
  let lo := listMinQ sc.1 - 1
  let hi := listMaxQ sc.2 + 1
  let traces : List Trace :=
    [ ⟨TraceKind.pcaScoresTr, s.grid.map (fun n => (n : ℚ)), sc.1⟩,
      ⟨TraceKind.faScoresTr, s.grid.map (fun n => (n : ℚ)), sc.2⟩,
      ⟨TraceKind.truthTr, [(rank : ℚ), (rank : ℚ)], [lo, hi]⟩,
      ⟨TraceKind.pcaCVTr, [(r.n_components_pca : ℚ), (r.n_components_pca : ℚ)], [lo, hi]⟩,
      ⟨TraceKind.faCVTr, [(r.n_components_fa : ℚ), (r.n_components_fa : ℚ)], [lo, hi]⟩,
      ⟨TraceKind.pcaMLETr,
        [(r.n_components_pca_mle : ℚ), (r.n_components_pca_mle : ℚ)], [lo, hi]⟩,
      ⟨TraceKind.shrunkCovTr, [(listMinN s.grid : ℚ), (listMaxN s.grid : ℚ)],
        [shrunk_cov_score lib Xd, shrunk_cov_score lib Xd]⟩,
      ⟨TraceKind.ledoitWolfTr, [(listMinN s.grid : ℚ), (listMaxN s.grid : ℚ)],
        [lw_score lib Xd, lw_score lib Xd]⟩ ]
  { s with data := s.data.set s.idx traces, idx := s.idx + 1 }

/-- Translation of the whole plotting loop: the iteration list
[(X_homo, ...), (X_hetero, ...)] is built from the state once, then the
body runs on each dataset in order. -/
def mainLoop (lib : Library) (s : LoopState) : LoopState :=
  [s.X_homo, s.X_hetero].foldl (loopBody lib) s

/-- C9: the main loop — and hence every scoring operation it invokes —
leaves the signal matrix, both datasets, the noise-scale vector and the
component-count grid exactly as it found them, for every library oracle and
every starting state: the iteration writes only the chart accumulator and
the loop counter. -/
theorem c9_no_mutation (lib : Library) (s : LoopState) :
    (mainLoop lib s).X = s.X
    ∧ (mainLoop lib s).X_homo = s.X_homo
    ∧ (mainLoop lib s).X_hetero = s.X_hetero
    ∧ (mainLoop lib s).sigmas = s.sigmas
    ∧ (mainLoop lib s).grid = s.grid
    ∧ (mainLoop lib s).idx = s.idx + 2 :=
  ⟨rfl, rfl, rfl, rfl, rfl, rfl⟩

end PCAFA
